import Mathlib

/-!
Verification of the refund-request evaluator in `src/pages/index.tsx`.

The program evaluates whether a customer's refund request falls inside an
allowed window. Its core is three pure functions plus a batch map:

* `parseCustomerInfo` — locale-aware normalization of slash-separated date
  strings into absolute timestamps (`new Date(...)`),
* `calculateRequestTiming` — elapsed hours between investment and refund,
* `calculateRefundPeriod` — the 4/8/16-hour policy table keyed on the
  acquisition source and a fixed terms-of-service cutoff date,
* `evaluate` / the `Home` component's `data.map(evaluate)`.

The embedding models JavaScript strings as `String`, JavaScript numbers that
can be `NaN` as `Option` (`none` = `NaN`: it propagates through arithmetic and
every comparison on it is false, which is all this program does with numbers),
`Date` values as `Option Int` milliseconds since the epoch (`none` = Invalid
Date), and a thrown exception as `Except.error`.
-/

namespace RefundEval

/-- Raw customer record as found in `data.json`. At runtime every field is a
plain string; `Location` and `Source` are only checked where the code
branches on them. Mirrors the TS type `CustomerData`. -/
structure CustomerData where
  Name : String
  Location : String
  SignupDate : String
  Source : String
  InvestmentDate : String
  InvestmentTime : String
  RefundDate : String
  RefundTime : String
  deriving DecidableEq

/-- Normalized record, mirror of the TS type `StandardCustomerData`: the three
date/time string pairs are replaced by absolute timestamps (`Option Int`
milliseconds; `none` is an Invalid Date, i.e. a `NaN` timestamp). -/
structure StandardCustomerData where
  Name : String
  Location : String
  SignupDate : Option Int
  Source : String
  InvestmentDate : Option Int
  RefundDate : Option Int
  isRequestValid : Bool
  deriving DecidableEq

/-- Worker for `jsSplit`: cut the character list at every occurrence of the
separator, accumulating the current piece in reverse. -/
def jsSplitAux (sep : Char) : List Char → List Char → List String
  | [], acc => [String.mk acc.reverse]
  | c :: cs, acc =>
    if c = sep then String.mk acc.reverse :: jsSplitAux sep cs []
    else jsSplitAux sep cs (c :: acc)

/-- JavaScript `String.prototype.split` with a one-character separator, as the
program uses it: `"a/b".split("/") = ["a","b"]`, `"".split("/") = [""]`,
`"a/".split("/") = ["a",""]`. -/
def jsSplit (s : String) (sep : Char) : List String := jsSplitAux sep s.data []

/-- Decimal value of a digit run; `none` as soon as a non-digit appears. -/
def parseDigits : List Char → Nat → Option Nat
  | [], acc => some acc
  | c :: cs, acc =>
    if c.isDigit then parseDigits cs (10 * acc + (c.toNat - 48)) else none

/-- A numeric component of a date or time string: a nonempty run of decimal
digits; anything else makes the surrounding date invalid. -/
def toNum (s : String) : Option Nat :=
  match s.data with
  | [] => none
  | cs => parseDigits cs 0

/-- Days from the Unix epoch (1970-01-01) of the civil date `(y, m, d)`,
Hinnant's `days_from_civil` algorithm; assumes `1 ≤ m ≤ 12` and `1 ≤ y`
(guaranteed by `parseDateParts`). Linear in `d`, so a day past the end of the
month rolls over into the next month, as V8's date parser does. -/
def daysFromCivil (y m d : Nat) : Int :=
  let y := if m ≤ 2 then y - 1 else y
  let era := y / 400
  let yoe := y - era * 400
  let mp := (m + 9) % 12
  let doy := (153 * mp + 2) / 5 + (d - 1)
  let doe := yoe * 365 + yoe / 4 - yoe / 100 + doy
  (↑(era * 146097 + doe) : Int) - 719468

/-- Milliseconds since the epoch of the wall-clock instant
`(y, m, d, h, mi)`, as `Date.prototype.getTime` reports it. The program does
no timezone conversion: the timestamp is the literal wall clock. -/
def msOfCivil (y m d h mi : Nat) : Int :=
  daysFromCivil y m d * 86400000 + (↑(h * 3600000 + mi * 60000) : Int)

/-- The date part of a parsed string: exactly three slash-separated numeric
components read as month/day/year, with month 1..12, day 1..31 and a positive
year; anything else is an invalid date. -/
def parseDateParts (s : String) : Option (Nat × Nat × Nat) :=
  match jsSplit s '/' with
  | [mStr, dStr, yStr] => do
    let m ← toNum mStr
    let d ← toNum dStr
    let y ← toNum yStr
    if 1 ≤ m ∧ m ≤ 12 ∧ 1 ≤ d ∧ d ≤ 31 ∧ 1 ≤ y then some (m, d, y) else none
  | _ => none

/-- The time-of-day part: `H:MM` with hour 0..23 and minute 0..59. -/
def parseTimeParts (s : String) : Option (Nat × Nat) :=
  match jsSplit s ':' with
  | [hStr, minStr] => do
    let h ← toNum hStr
    let mi ← toNum minStr
    if h ≤ 23 ∧ mi ≤ 59 then some (h, mi) else none
  | _ => none

/-- V8's fallback date parser treats `-` like `/` in month/day/year strings
(`new Date("01-02-2020")` is January 2, 2020); normalize the separator. -/
def normSeps : List Char → List Char
  | [] => []
  | c :: cs => (if c = '-' then '/' else c) :: normSeps cs

/-- Model of the ECMAScript `new Date(string)` constructor (V8's fallback
month/day/year parser) restricted to the string shapes this program builds:
a date `M/D/Y` alone (implicit midnight) or a date followed by one space and
a time `H:MM`, with `-` accepted for `/`. `none` is the Invalid Date, whose
`getTime` is `NaN`; otherwise the value is the wall-clock instant in
milliseconds since the epoch. -/
def newDate (s : String) : Option Int :=
  match jsSplit (String.mk (normSeps s.data)) ' ' with
  | [dateStr] => do
    let (m, d, y) ← parseDateParts dateStr
    pure (msOfCivil y m d 0 0)
  | [dateStr, timeStr] => do
    let (m, d, y) ← parseDateParts dateStr
    let (h, mi) ← parseTimeParts timeStr
    pure (msOfCivil y m d h mi)
  | _ => none

/-- `date-fns` `isBefore(date, dateToCompare)`: strict `<` on the millisecond
timestamps; a comparison involving an Invalid Date (`NaN`) is `false`. -/
def isBefore (date dateToCompare : Option Int) : Bool :=
  match date, dateToCompare with
  | some a, some b => decide (a < b)
  | _, _ => false

/-- JavaScript `<=` where the left number may be `NaN` (`none`):
`NaN <= y` is `false`. -/
def jsLe (x : Option Rat) (y : Rat) : Bool :=
  match x with
  | some q => decide (q ≤ y)
  | none => false

/-- `parseCustomerInfo` from `src/pages/index.tsx`: split the three date
strings on `/`; reassemble them unchanged when `Location === "US"` and with
the first two components swapped otherwise; build the investment and refund
timestamps from the date plus the time-of-day string, and the signup
timestamp from the date alone. A JavaScript index past the end of the split
array is `undefined`, which the template literal renders as the text
`"undefined"`, so `List.getD i "undefined"` models `signupDate[i]`. -/
def parseCustomerInfo (customer : CustomerData) : StandardCustomerData :=
  let signupDate := jsSplit customer.SignupDate '/'
  let investmentDate := jsSplit customer.InvestmentDate '/'
  let refundDate := jsSplit customer.RefundDate '/'
  let isUS := customer.Location == "US"
  let signupDateFormat :=
    if isUS then
      signupDate.getD 0 "undefined" ++ "/" ++ signupDate.getD 1 "undefined"
        ++ "/" ++ signupDate.getD 2 "undefined"
    else
      signupDate.getD 1 "undefined" ++ "/" ++ signupDate.getD 0 "undefined"
        ++ "/" ++ signupDate.getD 2 "undefined"
  let investmentDateFormat :=
    if isUS then
      investmentDate.getD 0 "undefined" ++ "/" ++ investmentDate.getD 1 "undefined"
        ++ "/" ++ investmentDate.getD 2 "undefined"
    else
      investmentDate.getD 1 "undefined" ++ "/" ++ investmentDate.getD 0 "undefined"
        ++ "/" ++ investmentDate.getD 2 "undefined"
  let refundDateFormat :=
    if isUS then
      refundDate.getD 0 "undefined" ++ "/" ++ refundDate.getD 1 "undefined"
        ++ "/" ++ refundDate.getD 2 "undefined"
    else
      refundDate.getD 1 "undefined" ++ "/" ++ refundDate.getD 0 "undefined"
        ++ "/" ++ refundDate.getD 2 "undefined"
  { Name := customer.Name
    Location := customer.Location
    SignupDate := newDate signupDateFormat
    Source := customer.Source
    InvestmentDate := newDate (investmentDateFormat ++ " " ++ customer.InvestmentTime)
    RefundDate := newDate (refundDateFormat ++ " " ++ customer.RefundTime)
    isRequestValid := false }

/-- `calculateRequestTiming`: `(refund.getTime() - investment.getTime()) /
(60 * 60 * 1000)`. `getTime` of an Invalid Date is `NaN` and `NaN` propagates
through subtraction and division, hence the `Option Rat`. -/
def calculateRequestTiming (customer : StandardCustomerData) : Option Rat :=
  match customer.InvestmentDate, customer.RefundDate with
  | some investmentTimestamp, some refundTimestamp =>
    some ((↑(refundTimestamp - investmentTimestamp) : Rat) / (60 * 60 * 1000))
  | _, _ => none

/-- `calculateRefundPeriod`: the 2×2 policy table. `isOldTOS` compares the
signup timestamp strictly against `new Date("01-02-2020")`; the `switch` on
`Source` accepts exactly `"phone"` and `"web app"` and its default branch
throws `Error("Invalid Source")`, modelled as `Except.error`. -/
def calculateRefundPeriod (customer : StandardCustomerData) : Except String Nat :=
  let isOldTOS := isBefore customer.SignupDate (newDate "01-02-2020")
  match customer.Source with
  | "phone" => .ok (if isOldTOS then 4 else 8)
  | "web app" => .ok (if isOldTOS then 8 else 16)
  | _ => .error "Invalid Source"

/-- One row of the evaluated output: the normalized record plus the figures
`evaluate` adds to it. -/
structure EvaluationResult where
  Name : String
  Location : String
  SignupDate : Option Int
  Source : String
  InvestmentDate : Option Int
  RefundDate : Option Int
  isRequestValid : Bool
  requestTiming : Option Rat
  refundPeriod : Nat
  deriving DecidableEq

/-- `evaluate`: normalize, compute the elapsed hours and the refund window,
and render the verdict `requestTiming <= refundPeriod`. The throw inside
`calculateRefundPeriod` escapes `evaluate`, hence the `Except`. -/
def evaluate (data : CustomerData) : Except String EvaluationResult := do
  let customer := parseCustomerInfo data
  let requestTiming := calculateRequestTiming customer
  let refundPeriod ← calculateRefundPeriod customer
  let isRequestValid := jsLe requestTiming (↑refundPeriod)
  pure { Name := customer.Name
         Location := customer.Location
         SignupDate := customer.SignupDate
         Source := customer.Source
         InvestmentDate := customer.InvestmentDate
         RefundDate := customer.RefundDate
         isRequestValid := isRequestValid
         requestTiming := requestTiming
         refundPeriod := refundPeriod }

/-- The batch evaluation in the `Home` component: `data.map(evaluate)` with no
try/catch around it. A JavaScript exception thrown by `evaluate` propagates
out of `Array.prototype.map`, so the batch is the map in the `Except` monad:
the first failing record aborts the whole batch. -/
def evaluateBatch : List CustomerData → Except String (List EvaluationResult)
  | [] => .ok []
  | c :: cs => do
    let r ← evaluate c
    let rs ← evaluateBatch cs
    pure (r :: rs)

/-- The refund-window policy table exactly as the spec states it, keyed on
(Source, is-signup-before-the-cutoff). Spec-side definition, used only to
compare `calculateRefundPeriod` against the 2×2 table of the spec. -/
def specRefundWindow (source : String) (beforeCutoff : Bool) : Nat :=
  if source == "phone" then (if beforeCutoff then 4 else 8)
  else (if beforeCutoff then 8 else 16)

instance {ε α : Type} [DecidableEq ε] [DecidableEq α] : DecidableEq (Except ε α) :=
  fun a b =>
    match a, b with
    | .ok x, .ok y =>
      if h : x = y then .isTrue (by rw [h])
      else .isFalse (fun hh => h (Except.ok.inj hh))
    | .error e, .error f =>
      if h : e = f then .isTrue (by rw [h])
      else .isFalse (fun hh => h (Except.error.inj hh))
    | .ok _, .error _ => .isFalse (fun hh => Except.noConfusion hh)
    | .error _, .ok _ => .isFalse (fun hh => Except.noConfusion hh)

/-- Unfolding lemma for `evaluate` on a record whose refund period computes. -/
theorem evaluate_ok_of (data : CustomerData) (n : Nat) (q : Option Rat) (b : Bool)
    (hr : calculateRefundPeriod (parseCustomerInfo data) = .ok n)
    (ht : calculateRequestTiming (parseCustomerInfo data) = q)
    (hb : jsLe q (↑n) = b) :
    evaluate data = .ok
      { Name := (parseCustomerInfo data).Name
        Location := (parseCustomerInfo data).Location
        SignupDate := (parseCustomerInfo data).SignupDate
        Source := (parseCustomerInfo data).Source
        InvestmentDate := (parseCustomerInfo data).InvestmentDate
        RefundDate := (parseCustomerInfo data).RefundDate
        isRequestValid := b
        requestTiming := q
        refundPeriod := n } := by
  unfold evaluate
  rw [show (do
      let customer := parseCustomerInfo data
      let requestTiming := calculateRequestTiming customer
      let refundPeriod ← calculateRefundPeriod customer
      let isRequestValid := jsLe requestTiming (↑refundPeriod)
      pure { Name := customer.Name
             Location := customer.Location
             SignupDate := customer.SignupDate
             Source := customer.Source
             InvestmentDate := customer.InvestmentDate
             RefundDate := customer.RefundDate
             isRequestValid := isRequestValid
             requestTiming := requestTiming
             refundPeriod := refundPeriod } : Except String EvaluationResult) =
      Except.bind (calculateRefundPeriod (parseCustomerInfo data)) (fun refundPeriod =>
        Except.ok
          { Name := (parseCustomerInfo data).Name
            Location := (parseCustomerInfo data).Location
            SignupDate := (parseCustomerInfo data).SignupDate
            Source := (parseCustomerInfo data).Source
            InvestmentDate := (parseCustomerInfo data).InvestmentDate
            RefundDate := (parseCustomerInfo data).RefundDate
            isRequestValid := jsLe (calculateRequestTiming (parseCustomerInfo data)) (↑refundPeriod)
            requestTiming := calculateRequestTiming (parseCustomerInfo data)
            refundPeriod := refundPeriod }) from rfl]
  rw [hr]
  subst ht
  subst hb
  rfl

/-- Unfolding lemma for `evaluate` on a record whose refund period throws. -/
theorem evaluate_error_of (data : CustomerData) (e : String)
    (h : calculateRefundPeriod (parseCustomerInfo data) = .error e) :
    evaluate data = .error e := by
  unfold evaluate
  rw [show (do
      let customer := parseCustomerInfo data
      let requestTiming := calculateRequestTiming customer
      let refundPeriod ← calculateRefundPeriod customer
      let isRequestValid := jsLe requestTiming (↑refundPeriod)
      pure { Name := customer.Name
             Location := customer.Location
             SignupDate := customer.SignupDate
             Source := customer.Source
             InvestmentDate := customer.InvestmentDate
             RefundDate := customer.RefundDate
             isRequestValid := isRequestValid
             requestTiming := requestTiming
             refundPeriod := refundPeriod } : Except String EvaluationResult) =
      Except.bind (calculateRefundPeriod (parseCustomerInfo data)) (fun refundPeriod =>
        Except.ok
          { Name := (parseCustomerInfo data).Name
            Location := (parseCustomerInfo data).Location
            SignupDate := (parseCustomerInfo data).SignupDate
            Source := (parseCustomerInfo data).Source
            InvestmentDate := (parseCustomerInfo data).InvestmentDate
            RefundDate := (parseCustomerInfo data).RefundDate
            isRequestValid := jsLe (calculateRequestTiming (parseCustomerInfo data)) (↑refundPeriod)
            requestTiming := calculateRequestTiming (parseCustomerInfo data)
            refundPeriod := refundPeriod }) from rfl]
  rw [h]
  rfl

/-- Every field equation that `evaluate data = .ok res` forces. -/
theorem evaluate_ok_fields (data : CustomerData) (res : EvaluationResult)
    (h : evaluate data = .ok res) :
    calculateRefundPeriod (parseCustomerInfo data) = .ok res.refundPeriod ∧
    res.requestTiming = calculateRequestTiming (parseCustomerInfo data) ∧
    res.isRequestValid = jsLe res.requestTiming (↑res.refundPeriod) ∧
    res.InvestmentDate = (parseCustomerInfo data).InvestmentDate ∧
    res.RefundDate = (parseCustomerInfo data).RefundDate := by
  cases hr : calculateRefundPeriod (parseCustomerInfo data) with
  | error e =>
    rw [evaluate_error_of data e hr] at h
    exact Except.noConfusion h
  | ok n =>
    have hok := evaluate_ok_of data n (calculateRequestTiming (parseCustomerInfo data))
      (jsLe (calculateRequestTiming (parseCustomerInfo data)) (↑n)) hr rfl rfl
    rw [hok] at h
    have hres := Except.ok.inj h
    rw [← hres]
    exact ⟨rfl, rfl, rfl, rfl, rfl⟩

/-- Scenario 1 of the spec: US phone customer, signup before the cutoff,
three hours between investment and refund. -/
def sample1 : CustomerData :=
  { Name := "A", Location := "US", SignupDate := "01/01/2019", Source := "phone",
    InvestmentDate := "01/10/2024", InvestmentTime := "10:00",
    RefundDate := "01/10/2024", RefundTime := "13:00" }

/-- The normalized form of `sample1`. -/
def std1 : StandardCustomerData :=
  { Name := "A", Location := "US", SignupDate := some 1546300800000, Source := "phone",
    InvestmentDate := some 1704880800000, RefundDate := some 1704891600000,
    isRequestValid := false }

/-- The evaluated form of `sample1`. -/
def res1 : EvaluationResult :=
  { Name := "A", Location := "US", SignupDate := some 1546300800000, Source := "phone",
    InvestmentDate := some 1704880800000, RefundDate := some 1704891600000,
    isRequestValid := true, requestTiming := some 3, refundPeriod := 4 }

theorem parse_sample1 : parseCustomerInfo sample1 = std1 := by decide

theorem timing_sample1 : calculateRequestTiming (parseCustomerInfo sample1) = some 3 := by
  rw [parse_sample1]
  have h : calculateRequestTiming std1 =
      some ((↑((1704891600000 : Int) - 1704880800000) : Rat) / (60 * 60 * 1000)) := rfl
  rw [h]
  simp only [Option.some.injEq]
  norm_num

theorem eval_sample1 : evaluate sample1 = Except.ok res1 := by
  have h := evaluate_ok_of sample1 4 (some 3) true
    (by rw [parse_sample1]; decide)
    timing_sample1
    (by simp only [jsLe]; norm_num)
  rw [parse_sample1] at h
  exact h

/-- C1: for every record that evaluates without error and whose elapsed time
is an actual number, the verdict is exactly the non-strict comparison: the
request is valid iff the elapsed hours are at most the refund window; in
particular equality is eligible. -/
theorem verdict_iff_within_window (data : CustomerData) (res : EvaluationResult) (q : Rat)
    (hok : evaluate data = Except.ok res) (hq : res.requestTiming = some q) :
    res.isRequestValid = true ↔ q ≤ (↑res.refundPeriod : Rat) := by
  obtain ⟨-, -, hvb, -, -⟩ := evaluate_ok_fields data res hok
  rw [hq] at hvb
  rw [hvb]
  simp [jsLe]

/-- Witness for C1 at the first spec scenario: three elapsed hours against a
four-hour window, eligible. -/
theorem verdict_iff_within_window_witness :
    res1.isRequestValid = true ↔ (3 : Rat) ≤ (↑res1.refundPeriod : Rat) :=
  verdict_iff_within_window sample1 res1 3 eval_sample1 rfl

/-- C2: for a valid Source the refund window is selected by the 2×2 table of
the spec (phone: 4 before the cutoff and 8 on/after it; web app: 8 before and
16 on/after), hence it is always one of 4, 8, 16 and never any other value. -/
theorem refundPeriod_matches_spec_table (c : StandardCustomerData)
    (h : c.Source = "phone" ∨ c.Source = "web app") :
    calculateRefundPeriod c =
      Except.ok (specRefundWindow c.Source (isBefore c.SignupDate (newDate "01-02-2020"))) ∧
    ∀ n, calculateRefundPeriod c = Except.ok n → (n = 4 ∨ n = 8 ∨ n = 16) := by
  have htab : calculateRefundPeriod c =
      Except.ok (specRefundWindow c.Source (isBefore c.SignupDate (newDate "01-02-2020"))) := by
    rcases h with h | h <;>
      simp only [calculateRefundPeriod, specRefundWindow, h] <;>
      cases isBefore c.SignupDate (newDate "01-02-2020") <;> simp
  refine ⟨htab, fun n hn => ?_⟩
  rw [htab] at hn
  have hn' := Except.ok.inj hn
  rw [← hn']
  rcases h with h | h <;> simp only [specRefundWindow, h] <;>
    cases isBefore c.SignupDate (newDate "01-02-2020") <;> simp

/-- Witness for C2: the phone customer of scenario 1, signed up before the
cutoff, gets the 4-hour window of the table. -/
theorem refundPeriod_matches_spec_table_witness :
    calculateRefundPeriod std1 =
      Except.ok (specRefundWindow std1.Source
        (isBefore std1.SignupDate (newDate "01-02-2020"))) :=
  (refundPeriod_matches_spec_table std1 (Or.inl rfl)).1

/-- A record whose signup timestamp is exactly the cutoff instant. -/
def cutoffStd : StandardCustomerData :=
  { Name := "C", Location := "US", SignupDate := some (msOfCivil 2020 1 2 0 0),
    Source := "phone", InvestmentDate := none, RefundDate := none,
    isRequestValid := false }

/-- C4: the terms-of-service cutoff is the single fixed instant
January 2, 2020 at midnight (`msOfCivil 2020 1 2 0 0`); before-cutoff is a
strict less-than comparison on the signup timestamp, so a signup exactly at
the cutoff counts as on/after it and selects the higher tier: 8 for phone,
16 for web app. -/
theorem signup_at_cutoff_selects_higher_tier (c : StandardCustomerData)
    (hsign : c.SignupDate = some (msOfCivil 2020 1 2 0 0)) :
    newDate "01-02-2020" = some (msOfCivil 2020 1 2 0 0) ∧
    (∀ t : Int, isBefore (some t) (newDate "01-02-2020") =
      decide (t < msOfCivil 2020 1 2 0 0)) ∧
    isBefore c.SignupDate (newDate "01-02-2020") = false ∧
    (c.Source = "phone" → calculateRefundPeriod c = Except.ok 8) ∧
    (c.Source = "web app" → calculateRefundPeriod c = Except.ok 16) := by
  have hcut : newDate "01-02-2020" = some (msOfCivil 2020 1 2 0 0) := by decide
  have hmono : ∀ t : Int, isBefore (some t) (newDate "01-02-2020") =
      decide (t < msOfCivil 2020 1 2 0 0) := fun t => by rw [hcut]; rfl
  have hfalse : isBefore c.SignupDate (newDate "01-02-2020") = false := by
    rw [hsign, hmono]
    simp
  refine ⟨hcut, hmono, hfalse, fun h => ?_, fun h => ?_⟩ <;>
    simp only [calculateRefundPeriod, h, hfalse] <;> simp

/-- Witness for C4: a phone customer signed up exactly at the cutoff gets the
8-hour window, not 4. -/
theorem signup_at_cutoff_selects_higher_tier_witness :
    calculateRefundPeriod cutoffStd = Except.ok 8 :=
  (signup_at_cutoff_selects_higher_tier cutoffStd rfl).2.2.2.1 rfl

/-- A normalized record carrying the hyphenated source spelling. -/
def webHyphenStd : StandardCustomerData :=
  { Name := "W", Location := "US", SignupDate := some 1546300800000,
    Source := "web-app", InvestmentDate := none, RefundDate := none,
    isRequestValid := false }

/-- C10: the switch accepts exactly the Source strings "phone" and
"web app" (with a space); every other string — including the hyphenated
spelling "web-app" — reaches the default branch and throws "Invalid Source". -/
theorem source_domain_exact (c : StandardCustomerData) :
    ((∃ n, calculateRefundPeriod c = Except.ok n) ↔
      (c.Source = "phone" ∨ c.Source = "web app")) ∧
    ((c.Source ≠ "phone" ∧ c.Source ≠ "web app") →
      calculateRefundPeriod c = Except.error "Invalid Source") := by
  have herr : ∀ (h1 : c.Source ≠ "phone") (h2 : c.Source ≠ "web app"),
      calculateRefundPeriod c = Except.error "Invalid Source" := by
    intro h1 h2
    simp only [calculateRefundPeriod]
  refine ⟨⟨?_, ?_⟩, fun h => herr h.1 h.2⟩
  · rintro ⟨n, hn⟩
    by_contra hc
    push_neg at hc
    rw [herr hc.1 hc.2] at hn
    exact Except.noConfusion hn
  · rintro (h | h) <;> simp only [calculateRefundPeriod, h] <;> exact ⟨_, rfl⟩

/-- Witness for C10: the hyphenated spelling "web-app" is rejected with the
"Invalid Source" error. -/
theorem source_domain_exact_witness :
    calculateRefundPeriod webHyphenStd = Except.error "Invalid Source" :=
  (source_domain_exact webHyphenStd).2 (by decide)

/-- Shared helper: the default branch of the Source switch. -/
theorem calculateRefundPeriod_default (c : StandardCustomerData)
    (h1 : c.Source ≠ "phone") (h2 : c.Source ≠ "web app") :
    calculateRefundPeriod c = Except.error "Invalid Source" := by
  simp only [calculateRefundPeriod]

/-- Shared helper: a valid Source always yields some refund window. -/
theorem calculateRefundPeriod_isOk (c : StandardCustomerData)
    (h : c.Source = "phone" ∨ c.Source = "web app") :
    ∃ n, calculateRefundPeriod c = Except.ok n := by
  rcases h with h | h <;> simp only [calculateRefundPeriod, h] <;> exact ⟨_, rfl⟩

/-- Scenario 2 variant with the refund recorded before the investment. -/
def sample2 : CustomerData :=
  { Name := "B", Location := "US", SignupDate := "01/01/2019", Source := "phone",
    InvestmentDate := "01/10/2024", InvestmentTime := "13:00",
    RefundDate := "01/10/2024", RefundTime := "10:00" }

/-- The normalized form of `sample2`. -/
def std2 : StandardCustomerData :=
  { Name := "B", Location := "US", SignupDate := some 1546300800000, Source := "phone",
    InvestmentDate := some 1704891600000, RefundDate := some 1704880800000,
    isRequestValid := false }

/-- The evaluated form of `sample2`: minus three hours elapsed, eligible. -/
def res2 : EvaluationResult :=
  { Name := "B", Location := "US", SignupDate := some 1546300800000, Source := "phone",
    InvestmentDate := some 1704891600000, RefundDate := some 1704880800000,
    isRequestValid := true, requestTiming := some (-3), refundPeriod := 4 }

theorem parse_sample2 : parseCustomerInfo sample2 = std2 := by decide

theorem timing_sample2 : calculateRequestTiming (parseCustomerInfo sample2) = some (-3) := by
  rw [parse_sample2]
  have h : calculateRequestTiming std2 =
      some ((↑((1704880800000 : Int) - 1704891600000) : Rat) / (60 * 60 * 1000)) := rfl
  rw [h]
  simp only [Option.some.injEq]
  norm_num

theorem eval_sample2 : evaluate sample2 = Except.ok res2 := by
  have h := evaluate_ok_of sample2 4 (some (-3)) true
    (by rw [parse_sample2]; decide)
    timing_sample2
    (by simp only [jsLe]; norm_num)
  rw [parse_sample2] at h
  exact h

/-- C5: for every record that evaluates and has two actual timestamps, the
elapsed figure is exactly (refund − investment) milliseconds divided by
3600000, an exact rational — fractional hours and sign preserved — and a
refund recorded before the investment (negative elapsed time) always yields
an eligible verdict. -/
theorem requestTiming_hours_signed (data : CustomerData) (res : EvaluationResult)
    (tI tR : Int) (hok : evaluate data = Except.ok res)
    (hI : res.InvestmentDate = some tI) (hR : res.RefundDate = some tR) :
    res.requestTiming = some ((↑(tR - tI) : Rat) / (60 * 60 * 1000)) ∧
    (tR < tI → res.isRequestValid = true) := by
  obtain ⟨-, htq, hvb, hInv, hRef⟩ := evaluate_ok_fields data res hok
  rw [hInv] at hI
  rw [hRef] at hR
  have htiming : calculateRequestTiming (parseCustomerInfo data) =
      some ((↑(tR - tI) : Rat) / (60 * 60 * 1000)) := by
    simp only [calculateRequestTiming, hI, hR]
  have hq : res.requestTiming = some ((↑(tR - tI) : Rat) / (60 * 60 * 1000)) :=
    htq.trans htiming
  refine ⟨hq, fun hneg => ?_⟩
  rw [hvb, hq]
  simp only [jsLe, decide_eq_true_eq]
  have hnum : ((↑(tR - tI) : Rat)) ≤ 0 := by
    have : tR - tI ≤ 0 := by omega
    exact_mod_cast this
  have hq0 : ((↑(tR - tI) : Rat) / (60 * 60 * 1000)) ≤ 0 :=
    div_nonpos_iff.mpr (Or.inr ⟨hnum, by norm_num⟩)
  exact le_trans hq0 (Nat.cast_nonneg _)

/-- Witness for C5: refund three hours before the investment gives elapsed
time minus three hours and an eligible verdict. -/
theorem requestTiming_hours_signed_witness :
    res2.requestTiming =
      some ((↑((1704880800000 : Int) - 1704891600000) : Rat) / (60 * 60 * 1000)) ∧
    res2.isRequestValid = true :=
  ⟨(requestTiming_hours_signed sample2 res2 1704891600000 1704880800000
      eval_sample2 rfl rfl).1,
   (requestTiming_hours_signed sample2 res2 1704891600000 1704880800000
      eval_sample2 rfl rfl).2 (by norm_num)⟩

/-- An unsupported-source record, the spec's scenario 4. -/
def mailRecord : CustomerData :=
  { Name := "M", Location := "US", SignupDate := "01/01/2019", Source := "mail",
    InvestmentDate := "01/10/2024", InvestmentTime := "10:00",
    RefundDate := "01/10/2024", RefundTime := "13:00" }

/-- Counterexample to C7 as stated: the batch made of an unsupported-source
record followed by a perfectly valid record does not continue past the bad
record — the thrown error propagates out of the map, the whole batch aborts,
and the valid record (which evaluates fine on its own) appears in no output. -/
theorem invalidSource_batch_abort_cex :
    evaluate mailRecord = Except.error "Invalid Source" ∧
    (∃ r, evaluate sample1 = Except.ok r) ∧
    evaluateBatch [mailRecord, sample1] = Except.error "Invalid Source" := by
  have hm : evaluate mailRecord = Except.error "Invalid Source" :=
    evaluate_error_of mailRecord _ (calculateRefundPeriod_default _ (by decide) (by decide))
  refine ⟨hm, ⟨res1, eval_sample1⟩, ?_⟩
  simp only [evaluateBatch]
  rw [hm]
  rfl

/-- C7 amended: a record whose Source is outside (phone, web app) fails
evaluation with the distinguishable error "Invalid Source" rather than
defaulting to a guessed window; but the failure is not per-record: however
many earlier records evaluate fine, the error propagates out of the batch
map, the whole batch evaluation aborts, and the other records appear in no
output. -/
theorem invalidSource_error_aborts_batch (c : CustomerData)
    (h1 : c.Source ≠ "phone") (h2 : c.Source ≠ "web app")
    (pre rest : List CustomerData)
    (hpre : ∀ p ∈ pre, ∃ r, evaluate p = Except.ok r) :
    evaluate c = Except.error "Invalid Source" ∧
    evaluateBatch (pre ++ c :: rest) = Except.error "Invalid Source" := by
  have herr : evaluate c = Except.error "Invalid Source" :=
    evaluate_error_of c _ (calculateRefundPeriod_default (parseCustomerInfo c) h1 h2)
  refine ⟨herr, ?_⟩
  induction pre with
  | nil =>
    simp only [List.nil_append, evaluateBatch]
    rw [herr]
    rfl
  | cons p ps ih =>
    obtain ⟨r, hr⟩ := hpre p (List.mem_cons_self p ps)
    have ihh := ih (fun x hx => hpre x (List.mem_cons_of_mem p hx))
    simp only [List.cons_append, evaluateBatch]
    rw [hr]
    show Except.bind (evaluateBatch (ps ++ c :: rest)) _ = _
    rw [ihh]
    rfl

/-- Witness for C7 (amended): scenario 4, a "mail" record after a valid
record aborts the whole batch. -/
theorem invalidSource_error_aborts_batch_witness :
    evaluate mailRecord = Except.error "Invalid Source" ∧
    evaluateBatch [sample1, mailRecord] = Except.error "Invalid Source" :=
  invalidSource_error_aborts_batch mailRecord (by decide) (by decide) [sample1] []
    (by
      intro p hp
      rw [List.mem_singleton] at hp
      exact ⟨res1, hp ▸ eval_sample1⟩)

/-- A record with a Location outside (US, Europe). -/
def marsRecord : CustomerData :=
  { Name := "R", Location := "Mars", SignupDate := "01/01/2019", Source := "phone",
    InvestmentDate := "01/10/2024", InvestmentTime := "10:00",
    RefundDate := "01/10/2024", RefundTime := "13:00" }

/-- Counterexample to C8 as stated: a record whose Location is "Mars" —
outside both US and Europe — does not fail evaluation; the code only tests
Location against "US" and silently takes the Europe branch, so the record
evaluates successfully. -/
theorem unsupported_location_no_failure_cex :
    marsRecord.Location ≠ "US" ∧ marsRecord.Location ≠ "Europe" ∧
    (∃ r, evaluate marsRecord = Except.ok r) := by
  refine ⟨by decide, by decide, ?_⟩
  obtain ⟨n, hn⟩ := calculateRefundPeriod_isOk (parseCustomerInfo marsRecord) (Or.inl rfl)
  exact ⟨_, evaluate_ok_of marsRecord n _ _ hn rfl rfl⟩

/-- C8 amended: the Normalizer only tests whether Location equals "US"; every
other Location value — supported or not — is parsed with the Europe (swap)
convention, and an unsupported Location is not a failure: with a valid Source
the record still evaluates. -/
theorem nonUS_location_parsed_as_Europe (c : CustomerData)
    (h : c.Location ≠ "US")
    (hsrc : c.Source = "phone" ∨ c.Source = "web app") :
    (parseCustomerInfo c).SignupDate =
      (parseCustomerInfo { c with Location := "Europe" }).SignupDate ∧
    (parseCustomerInfo c).InvestmentDate =
      (parseCustomerInfo { c with Location := "Europe" }).InvestmentDate ∧
    (parseCustomerInfo c).RefundDate =
      (parseCustomerInfo { c with Location := "Europe" }).RefundDate ∧
    (∃ r, evaluate c = Except.ok r) := by
  have hbeq : (c.Location == "US") = false := by
    rw [beq_eq_false_iff_ne]
    exact h
  have hok : ∃ r, evaluate c = Except.ok r := by
    have hps : (parseCustomerInfo c).Source = c.Source := rfl
    obtain ⟨n, hn⟩ := calculateRefundPeriod_isOk (parseCustomerInfo c) (by rw [hps]; exact hsrc)
    exact ⟨_, evaluate_ok_of c n _ _ hn rfl rfl⟩
  refine ⟨?_, ?_, ?_, hok⟩ <;> simp only [parseCustomerInfo, hbeq] <;> rfl

/-- Witness for C8 (amended): the "Mars" record parses exactly like its
Europe twin and still evaluates. -/
theorem nonUS_location_parsed_as_Europe_witness :
    (parseCustomerInfo marsRecord).SignupDate =
      (parseCustomerInfo { marsRecord with Location := "Europe" }).SignupDate ∧
    (parseCustomerInfo marsRecord).InvestmentDate =
      (parseCustomerInfo { marsRecord with Location := "Europe" }).InvestmentDate ∧
    (parseCustomerInfo marsRecord).RefundDate =
      (parseCustomerInfo { marsRecord with Location := "Europe" }).RefundDate ∧
    (∃ r, evaluate marsRecord = Except.ok r) :=
  nonUS_location_parsed_as_Europe marsRecord (by decide) (Or.inl rfl)

/-- A record whose investment date has an out-of-range month, so its
combined date-time string does not parse. -/
def badDateRecord : CustomerData :=
  { Name := "D", Location := "US", SignupDate := "01/01/2019", Source := "phone",
    InvestmentDate := "31/12/2024", InvestmentTime := "10:00",
    RefundDate := "01/10/2024", RefundTime := "13:00" }

/-- C9: normalization and the elapsed-time computation are total — a
malformed date never crashes a record whose Source is valid. The unparseable
combined string yields an invalid (NaN) timestamp, the elapsed hours become
NaN (`none`), the NaN comparison is false, and the verdict is simply
`isRequestValid = false`. -/
theorem malformed_dates_safe_verdict (data : CustomerData)
    (hsrc : data.Source = "phone" ∨ data.Source = "web app")
    (hbad : (parseCustomerInfo data).InvestmentDate = none ∨
      (parseCustomerInfo data).RefundDate = none) :
    ∃ res, evaluate data = Except.ok res ∧
      res.requestTiming = none ∧ res.isRequestValid = false := by
  have hnone : calculateRequestTiming (parseCustomerInfo data) = none := by
    rcases hbad with h | h
    · cases hR : (parseCustomerInfo data).RefundDate <;>
        simp only [calculateRequestTiming, h, hR]
    · cases hI : (parseCustomerInfo data).InvestmentDate <;>
        simp only [calculateRequestTiming, hI, h]
  have hps : (parseCustomerInfo data).Source = data.Source := rfl
  obtain ⟨n, hn⟩ := calculateRefundPeriod_isOk (parseCustomerInfo data) (by rw [hps]; exact hsrc)
  exact ⟨_, evaluate_ok_of data n none false hn hnone rfl, rfl, rfl⟩

/-- Witness for C9: the month-31 investment date gives a NaN timestamp and an
invalid (but crash-free) verdict. -/
theorem malformed_dates_safe_verdict_witness :
    ∃ res, evaluate badDateRecord = Except.ok res ∧
      res.requestTiming = none ∧ res.isRequestValid = false :=
  malformed_dates_safe_verdict badDateRecord (Or.inl rfl) (Or.inl (by decide))

/-- Splitting a character list free of the separator returns it whole. -/
theorem jsSplitAux_of_not_mem (sep : Char) (cs : List Char) (acc : List Char)
    (h : sep ∉ cs) :
    jsSplitAux sep cs acc = [String.mk (acc.reverse ++ cs)] := by
  induction cs generalizing acc with
  | nil => simp [jsSplitAux]
  | cons c cs ih =>
    have hc : ¬ (c = sep) := fun hh => h (by rw [← hh]; exact List.mem_cons_self c cs)
    simp only [jsSplitAux, if_neg hc]
    rw [ih (c :: acc) (fun hm => h (List.mem_cons_of_mem c hm))]
    simp

/-- Separator normalization only rewrites dashes, so it cannot create a
space. -/
theorem space_mem_of_mem_normSeps (cs : List Char) (h : ' ' ∈ normSeps cs) :
    ' ' ∈ cs := by
  induction cs with
  | nil => simp [normSeps] at h
  | cons c cs ih =>
    simp only [normSeps, List.mem_cons] at h
    rcases h with h | h
    · by_cases hc : c = '-'
      · rw [hc, if_pos rfl] at h
        exact absurd h (by decide)
      · rw [if_neg hc] at h
        rw [h]
        exact List.mem_cons_self c cs
    · exact List.mem_cons_of_mem c (ih h)

/-- A date string with no time part parses at implicit midnight. -/
theorem newDate_date_only (s : String) (m d y : Nat)
    (hnos : ' ' ∉ s.data)
    (hp : parseDateParts (String.mk (normSeps s.data)) = some (m, d, y)) :
    newDate s = some (msOfCivil y m d 0 0) := by
  have hnos2 : ' ' ∉ normSeps s.data :=
    fun hmem => hnos (space_mem_of_mem_normSeps s.data hmem)
  have hsplit : jsSplit (String.mk (normSeps s.data)) ' ' =
      [String.mk (normSeps s.data)] := by
    show jsSplitAux ' ' (normSeps s.data) [] = _
    rw [jsSplitAux_of_not_mem ' ' (normSeps s.data) [] hnos2]
    rfl
  simp only [newDate, hsplit, hp]
  rfl

/-- C3: the Normalizer splits each of the three date strings on the slash;
with Location = US it reassembles the three components unchanged, otherwise
it swaps the first two so the stored ordering is month-first; the investment
and refund timestamps are built from the reassembled date concatenated with
the corresponding time-of-day string, while the signup timestamp is built
from the date alone, which parses at implicit midnight (hour and minute 0). -/
theorem parseCustomerInfo_normalizes_dates (c : CustomerData)
    (s1 s2 s3 i1 i2 i3 r1 r2 r3 : String)
    (hs : jsSplit c.SignupDate '/' = [s1, s2, s3])
    (hi : jsSplit c.InvestmentDate '/' = [i1, i2, i3])
    (hr : jsSplit c.RefundDate '/' = [r1, r2, r3]) :
    (parseCustomerInfo c).SignupDate =
      newDate (if c.Location == "US" then s1 ++ "/" ++ s2 ++ "/" ++ s3
        else s2 ++ "/" ++ s1 ++ "/" ++ s3) ∧
    (parseCustomerInfo c).InvestmentDate =
      newDate ((if c.Location == "US" then i1 ++ "/" ++ i2 ++ "/" ++ i3
        else i2 ++ "/" ++ i1 ++ "/" ++ i3) ++ " " ++ c.InvestmentTime) ∧
    (parseCustomerInfo c).RefundDate =
      newDate ((if c.Location == "US" then r1 ++ "/" ++ r2 ++ "/" ++ r3
        else r2 ++ "/" ++ r1 ++ "/" ++ r3) ++ " " ++ c.RefundTime) ∧
    (∀ m d y,
      ' ' ∉ (if c.Location == "US" then s1 ++ "/" ++ s2 ++ "/" ++ s3
        else s2 ++ "/" ++ s1 ++ "/" ++ s3).data →
      parseDateParts (String.mk (normSeps
        (if c.Location == "US" then s1 ++ "/" ++ s2 ++ "/" ++ s3
          else s2 ++ "/" ++ s1 ++ "/" ++ s3).data)) = some (m, d, y) →
      (parseCustomerInfo c).SignupDate = some (msOfCivil y m d 0 0)) := by
  have h1 : (parseCustomerInfo c).SignupDate =
      newDate (if c.Location == "US" then s1 ++ "/" ++ s2 ++ "/" ++ s3
        else s2 ++ "/" ++ s1 ++ "/" ++ s3) := by
    cases hL : (c.Location == "US") <;> simp [parseCustomerInfo, hL, hs]
  refine ⟨h1, ?_, ?_, fun m d y hnos hp => ?_⟩
  · cases hL : (c.Location == "US") <;> simp [parseCustomerInfo, hL, hi]
  · cases hL : (c.Location == "US") <;> simp [parseCustomerInfo, hL, hr]
  · rw [h1]
    exact newDate_date_only _ m d y hnos hp

/-- Witness for C3 at scenario 1: the US record's dates are reassembled
unchanged, the time strings are appended to the investment and refund dates
only, and the signup timestamp is midnight of January 1, 2019. -/
theorem parseCustomerInfo_normalizes_dates_witness :
    (parseCustomerInfo sample1).SignupDate = newDate "01/01/2019" ∧
    (parseCustomerInfo sample1).InvestmentDate = newDate ("01/10/2024" ++ " " ++ "10:00") ∧
    (parseCustomerInfo sample1).RefundDate = newDate ("01/10/2024" ++ " " ++ "13:00") ∧
    (parseCustomerInfo sample1).SignupDate = some (msOfCivil 2019 1 1 0 0) := by
  obtain ⟨h1, h2, h3, h4⟩ := parseCustomerInfo_normalizes_dates sample1
    "01" "01" "2019" "01" "10" "2024" "01" "10" "2024"
    (by decide) (by decide) (by decide)
  exact ⟨h1, h2, h3, h4 1 1 2019 (by decide) (by decide)⟩

/-- The US-convention record of spec scenario 3. -/
def usRec : CustomerData :=
  { Name := "U", Location := "US", SignupDate := "03/15/2021", Source := "web app",
    InvestmentDate := "06/01/2024", InvestmentTime := "09:00",
    RefundDate := "06/02/2024", RefundTime := "00:00" }

/-- The Europe-convention twin of `usRec`: the same calendar instants written
day-first. -/
def euRec : CustomerData :=
  { Name := "E", Location := "Europe", SignupDate := "15/03/2021", Source := "web app",
    InvestmentDate := "01/06/2024", InvestmentTime := "09:00",
    RefundDate := "02/06/2024", RefundTime := "00:00" }

/-- C6: a pair of raw records denoting the same calendar instants, one in the
US month-first convention with Location = US and one in the European
day-first convention with Location = Europe, normalize to identical absolute
timestamps in all three date fields. -/
theorem crossLocale_same_instant (cUS cEU : CustomerData)
    (hUS : cUS.Location = "US") (hEU : cEU.Location = "Europe")
    (sm sd sy im idd iy rm rd ry : String)
    (hsUS : jsSplit cUS.SignupDate '/' = [sm, sd, sy])
    (hsEU : jsSplit cEU.SignupDate '/' = [sd, sm, sy])
    (hiUS : jsSplit cUS.InvestmentDate '/' = [im, idd, iy])
    (hiEU : jsSplit cEU.InvestmentDate '/' = [idd, im, iy])
    (hrUS : jsSplit cUS.RefundDate '/' = [rm, rd, ry])
    (hrEU : jsSplit cEU.RefundDate '/' = [rd, rm, ry])
    (hti : cUS.InvestmentTime = cEU.InvestmentTime)
    (htr : cUS.RefundTime = cEU.RefundTime) :
    (parseCustomerInfo cUS).SignupDate = (parseCustomerInfo cEU).SignupDate ∧
    (parseCustomerInfo cUS).InvestmentDate = (parseCustomerInfo cEU).InvestmentDate ∧
    (parseCustomerInfo cUS).RefundDate = (parseCustomerInfo cEU).RefundDate := by
  have hbUS : (cUS.Location == "US") = true := by rw [hUS]; rfl
  have hbEU : (cEU.Location == "US") = false := by rw [hEU]; rfl
  refine ⟨?_, ?_, ?_⟩ <;>
    simp [parseCustomerInfo, hbUS, hbEU, hsUS, hsEU, hiUS, hiEU, hrUS, hrEU, hti, htr]

/-- Witness for C6 at spec scenario 3: the US record and its day-first Europe
twin normalize to the same three timestamps. -/
theorem crossLocale_same_instant_witness :
    (parseCustomerInfo usRec).SignupDate = (parseCustomerInfo euRec).SignupDate ∧
    (parseCustomerInfo usRec).InvestmentDate = (parseCustomerInfo euRec).InvestmentDate ∧
    (parseCustomerInfo usRec).RefundDate = (parseCustomerInfo euRec).RefundDate :=
  crossLocale_same_instant usRec euRec rfl rfl
    "03" "15" "2021" "06" "01" "2024" "06" "02" "2024"
    (by decide) (by decide) (by decide) (by decide) (by decide) (by decide) rfl rfl

end RefundEval
